import Mathlib

/-!
# Easy3D: Bezier curve sampling and the point cloud simplification dialog

Shallow embedding of

* `easy3d/core/curve.h` (`curve::quadratic`, `curve::cubic`), with the point
  arithmetic carried out exactly over the rationals and the loop counter kept
  as an unsigned 32-bit integer;
* `applications/Mapple/dialogs/dialog_point_cloud_simplification.cpp`
  (`DialogPointCloudSimplification`), as a state machine over the dialog's
  fields, the current model of the viewer and the calls it makes to its
  collaborators.
-/

namespace easy3d

namespace curve

variable {Point : Type} [AddCommGroup Point] [Module ℚ Point]

/-- The parameter of iteration `i`: `static_cast<FT>(i) / steps`. -/
def param (i steps : Nat) : ℚ := (i : ℚ) / (steps : ℚ)

/-- Body of the loop of `curve::quadratic`: the point pushed at parameter `t`. -/
def quadratic_point (A B C : Point) (t : ℚ) : Point :=
  let U := (1 - t) • A + t • B
  let V := (1 - t) • B + t • C
  (1 - t) • U + t • V

/-- The loop `for (unsigned int i = ...; i < steps + 1; i++)` of
`curve::quadratic`, entered with counter `i`; `steps + 1` and `i++` are
computed in 32-bit unsigned arithmetic. -/
def quadratic_loop (A B C : Point) (steps : Nat) (i : Nat) (curve : List Point) : List Point :=
  if i < (steps + 1) % 4294967296 then
    quadratic_loop A B C steps ((i + 1) % 4294967296)
      (curve ++ [quadratic_point A B C (param i steps)])
  else curve
termination_by (steps + 1) % 4294967296 - i
decreasing_by omega

/-- The function `curve::quadratic(A, B, C, steps, curve)`: returns the vector
`curve` after the call. -/
def quadratic (A B C : Point) (steps : Nat) (curve : List Point) : List Point :=
  quadratic_loop A B C steps 0 curve

/-- Body of the loop of `curve::cubic`: the point pushed at parameter `t`. -/
def cubic_point (A B C D : Point) (t : ℚ) : Point :=
  let U := (1 - t) • A + t • B
  let V := (1 - t) • B + t • C
  let W := (1 - t) • C + t • D
  let M := (1 - t) • U + t • V
  let N := (1 - t) • V + t • W
  (1 - t) • M + t • N

/-- The loop of `curve::cubic`, entered with counter `i`. -/
def cubic_loop (A B C D : Point) (steps : Nat) (i : Nat) (curve : List Point) : List Point :=
  if i < (steps + 1) % 4294967296 then
    cubic_loop A B C D steps ((i + 1) % 4294967296)
      (curve ++ [cubic_point A B C D (param i steps)])
  else curve
termination_by (steps + 1) % 4294967296 - i
decreasing_by omega

/-- The function `curve::cubic(A, B, C, D, steps, curve)`: returns the vector
`curve` after the call. -/
def cubic (A B C D : Point) (steps : Nat) (curve : List Point) : List Point :=
  cubic_loop A B C D steps 0 curve

/-- The quadratic Bezier curve in Bernstein form. -/
def bezier2 (A B C : Point) (t : ℚ) : Point :=
  ((1 - t) ^ 2) • A + (2 * t * (1 - t)) • B + (t ^ 2) • C

/-- The cubic Bezier curve in Bernstein form. -/
def bezier3 (A B C D : Point) (t : ℚ) : Point :=
  ((1 - t) ^ 3) • A + (3 * t * (1 - t) ^ 2) • B + (3 * t ^ 2 * (1 - t)) • C + (t ^ 3) • D

end curve

/-! ## The point cloud simplification dialog -/

/-- A 3D position (`vec3`), with exact coordinates. -/
abbrev vec3 : Type := ℚ × ℚ × ℚ

/-- Modelled from the spec: the point cloud container `PointCloud`, whose
implementation is not part of the sources at hand: "an ordered collection of
Points", whose identifiers are "dense, non-negative integers matching the
cloud's current indexing", with an "apply removal" operation made of
"delete-by-identifier followed by compaction". `deleted` holds the identifiers
marked by `delete_vertex` and not yet compacted. -/
structure PointCloud where
  points : List vec3
  deleted : List Nat
deriving DecidableEq

namespace PointCloud

/-- Modelled from the spec: `cloud->delete_vertex(PointCloud::Vertex(id))`, the
"delete-by-identifier" step: marks a valid, not yet marked identifier. -/
def delete_vertex (cloud : PointCloud) (id : Nat) : PointCloud :=
  if id < cloud.points.length ∧ id ∉ cloud.deleted then
    { cloud with deleted := id :: cloud.deleted }
  else cloud

/-- Modelled from the spec: `cloud->garbage_collection()`, the "compaction"
step: drops the marked points and renumbers the remaining ones densely. -/
def garbage_collection (cloud : PointCloud) : PointCloud :=
  { points := (cloud.points.enum.filter (fun ip => ip.1 ∉ cloud.deleted)).map Prod.snd
    deleted := [] }

/-- Modelled from the spec: `cloud->n_vertices()`, the "point count" of the
cloud: the points that are not marked as deleted. -/
def n_vertices (cloud : PointCloud) : Nat :=
  ((List.range cloud.points.length).filter (fun i => i ∉ cloud.deleted)).length

end PointCloud

/-- Modelled from the spec: the spatial index `KdTreeSearch_ETH`, whose
implementation is not part of the sources at hand: it is "built once over a
cloud snapshot" and "reflects a frozen snapshot". The value records the cloud
that `add_point_cloud` was given between `begin()` and `end()`. -/
structure KdTreeSearch_ETH where
  snapshot : PointCloud
deriving DecidableEq

/-- Squared Euclidean distance of two positions. -/
def distance2 (p q : vec3) : ℚ :=
  (p.1 - q.1) ^ 2 + (p.2.1 - q.2.1) ^ 2 + (p.2.2 - q.2.2) ^ 2

/-- Modelled from the spec: the radius query of the spatial index,
"withinRadius(Index, point, radius) -> list of identifiers": the identifiers
of the indexed points closer than `radius` to `p` (compared on squares). -/
def KdTreeSearch_ETH.withinRadius (t : KdTreeSearch_ETH) (p : vec3) (radius : ℚ) : List Nat :=
  (t.snapshot.points.enum.filter (fun jq => decide (distance2 jq.2 p < radius ^ 2))).map Prod.fst

/-- Modelled from the spec: the cell of a point in the grid simplifier,
"compute each point's cell coordinate via floor-division of its position by
the edge length along each axis". -/
def grid_cell (cell_size : ℚ) (p : vec3) : Int × Int × Int :=
  (Rat.floor (p.1 / cell_size), Rat.floor (p.2.1 / cell_size), Rat.floor (p.2.2 / cell_size))

/-- Modelled from the spec: the scan of the grid simplifier over the points
from identifier `id` on: "from each non-empty cell keep exactly one
representative point (policy: the first point encountered assigning to that
cell ...), marking every other point in that cell for removal". `occupied`
holds the cells that already have their representative. -/
def grid_scan (cell_size : ℚ) :
    List vec3 → Nat → List (Int × Int × Int) → List Nat → List Nat
  | [], _, _, removed => removed
  | p :: ps, id, occupied, removed =>
    if grid_cell cell_size p ∈ occupied then
      grid_scan cell_size ps (id + 1) occupied (removed ++ [id])
    else
      grid_scan cell_size ps (id + 1) (grid_cell cell_size p :: occupied) removed

/-- Modelled from the spec: `PointCloudSimplification::grid_simplification(cloud,
cell_size)`, whose implementation is not part of the sources at hand (section
4.2, Grid-Based Simplifier); a cell size that is not positive is "rejected"
and yields no removal set. -/
def grid_simplification (cloud : PointCloud) (cell_size : ℚ) : List Nat :=
  if cell_size ≤ 0 then [] else grid_scan cell_size cloud.points 0 [] []

/-- Modelled from the spec: the scan of the distance-threshold simplifier over
the points from identifier `id` on: "iterate candidate points in a fixed order;
for each, query the SpatialIndex ... for any already-kept neighbor within
threshold; if found, mark for removal, otherwise keep". -/
def uniform_scan (t : KdTreeSearch_ETH) (threshold : ℚ) :
    List vec3 → Nat → List Nat → List Nat → List Nat
  | [], _, _, removed => removed
  | p :: ps, id, kept, removed =>
    if (t.withinRadius p threshold).any (fun j => decide (j ∈ kept)) then
      uniform_scan t threshold ps (id + 1) kept (removed ++ [id])
    else
      uniform_scan t threshold ps (id + 1) (id :: kept) removed

/-- Modelled from the spec: `PointCloudSimplification::uniform_simplification(cloud,
threshold, kdtree)`, whose implementation is not part of the sources at hand
(section 4.3, Uniform / Distance-Threshold Simplifier, in identifier order);
a threshold that is not positive is "rejected", and so is a null index. -/
def uniform_simplification (cloud : PointCloud) (threshold : ℚ)
    (kdtree : Option KdTreeSearch_ETH) : List Nat :=
  match kdtree with
  | none => []
  | some t => if threshold ≤ 0 then [] else uniform_scan t threshold cloud.points 0 [] []

/-- Modelled from the spec: the interface of the simplification engine
`PointCloudSimplification`, whose implementation is not part of the sources at
hand. Each operation is "a pure function of (cloud snapshot, optional index,
strategy parameters) → RemovalSet" and "the engine only reads point positions".
The two overloads of `uniform_simplification` get different names. -/
structure PointCloudSimplification where
  average_spacing : PointCloud → KdTreeSearch_ETH → Nat → ℚ
  uniform_simplification_count : PointCloud → Nat → List Nat
  uniform_simplification : PointCloud → ℚ → Option KdTreeSearch_ETH → List Nat
  grid_simplification : PointCloud → ℚ → List Nat

/-- The engine whose distance-threshold and grid simplifiers are the ones
modelled above; the count-target simplifier and the spacing estimator stay
parameters. -/
def engine (count : PointCloud → Nat → List Nat) (spacing : PointCloud → KdTreeSearch_ETH → Nat → ℚ) :
    PointCloudSimplification :=
  { average_spacing := spacing
    uniform_simplification_count := count
    uniform_simplification := uniform_simplification
    grid_simplification := grid_simplification }

/-- The widgets of `Ui::DialogPointCloudSimplification` that the dialog reads or
writes, each by the value its accessor returns: `isChecked()` for the buttons,
`text().toInt()` and `text().toFloat()` for the line edits (`none`: the text
"unknown"). -/
structure Ui where
  radioButtonExpectedPointNumber : Bool
  checkBoxUniform : Bool
  lineEditExpectedPointNumber : Int
  lineEditDistanceThreshold : ℚ
  lineEditAverageSpacing : Option ℚ
deriving DecidableEq

/-- A call of the dialog to one of its collaborators. -/
inductive Call where
  /-- the calls `new KdTreeSearch_ETH; begin(); add_point_cloud(cloud); end()` -/
  | kdtree_build (cloud : PointCloud)
  /-- the call `PointCloudSimplification::average_spacing(cloud, kdtree_, k)` -/
  | average_spacing (cloud : PointCloud) (kdtree : KdTreeSearch_ETH) (k : Nat)
  /-- the call `PointCloudSimplification::uniform_simplification(cloud, expected_number)` -/
  | uniform_simplification_count (cloud : PointCloud) (expected_number : Nat)
  /-- the call `PointCloudSimplification::uniform_simplification(cloud, threshold, kdtree_)` -/
  | uniform_simplification (cloud : PointCloud) (threshold : ℚ) (kdtree : Option KdTreeSearch_ETH)
  /-- the call `PointCloudSimplification::grid_simplification(cloud, threshold)` -/
  | grid_simplification (cloud : PointCloud) (threshold : ℚ)
  /-- the loop of `delete_vertex` over `ids`, followed by `garbage_collection()` -/
  | delete_vertices (ids : List Nat)
deriving DecidableEq

/-- The calls to one of the three simplifiers of the engine. -/
def Call.isSimplifier : Call → Bool
  | .uniform_simplification_count _ _ => true
  | .uniform_simplification _ _ _ => true
  | .grid_simplification _ _ => true
  | _ => false

/-- The state of `DialogPointCloudSimplification` and of what it acts on:
`currentModel` is `dynamic_cast<PointCloud *>(viewer_->currentModel())` (`none`:
a null pointer), `kdtree_` and `points_to_remove_` are the members of the
class, and `calls` is the history of the calls made to the collaborators,
oldest first. -/
structure DialogPointCloudSimplification where
  currentModel : Option PointCloud
  ui : Ui
  kdtree_ : Option KdTreeSearch_ETH
  points_to_remove_ : List Nat
  calls : List Call
deriving DecidableEq

/-- Conversion of an `int` to `unsigned int`, as in
`unsigned int expected_number = ... .toInt()`. -/
def to_unsigned (v : Int) : Nat := (v % 4294967296).toNat

/-- Conversion of an `unsigned int` to `int`, as in `int num = cloud->n_vertices()`. -/
def to_int (n : Nat) : Int :=
  if n % 4294967296 < 2147483648 then (n % 4294967296 : Nat) else (n % 4294967296 : Nat) - 4294967296

namespace DialogPointCloudSimplification

/-- The dialog right after its constructor: no index, nothing to remove, the
default widget values ("0.01", "unknown", "100000", strategy 0). -/
def init (model : Option PointCloud) : DialogPointCloudSimplification :=
  { currentModel := model
    ui := { radioButtonExpectedPointNumber := true
            checkBoxUniform := false
            lineEditExpectedPointNumber := 100000
            lineEditDistanceThreshold := 1 / 100
            lineEditAverageSpacing := none }
    kdtree_ := none
    points_to_remove_ := []
    calls := [] }

/-- The method `closeEvent`. -/
def closeEvent (d : DialogPointCloudSimplification) : DialogPointCloudSimplification :=
  { d with points_to_remove_ := [] }

/-- The method `showEvent`. -/
def showEvent (d : DialogPointCloudSimplification) : DialogPointCloudSimplification :=
  match d.currentModel with
  | some cloud =>
    let num : Int := to_int cloud.n_vertices
    { d with ui := { d.ui with lineEditExpectedPointNumber := num } }
  | none => d

/-- The method `constructKdTree`. -/
def constructKdTree (d : DialogPointCloudSimplification) : DialogPointCloudSimplification :=
  match d.currentModel with
  | some cloud =>
    { d with kdtree_ := some { snapshot := cloud }
             calls := d.calls ++ [Call.kdtree_build cloud] }
  | none => d

/-- The method `computeAvgSpacing`. -/
def computeAvgSpacing (E : PointCloudSimplification) (d : DialogPointCloudSimplification) :
    DialogPointCloudSimplification :=
  match d.currentModel with
  | some cloud =>
    let d1 := constructKdTree d
    match d1.kdtree_ with
    | some kdtree =>
      let as := E.average_spacing cloud kdtree 6
      { d1 with ui := { d1.ui with lineEditAverageSpacing := some as }
                calls := d1.calls ++ [Call.average_spacing cloud kdtree 6] }
    | none => d1
  | none => d

/-- The method `query`. -/
def query (E : PointCloudSimplification) (d : DialogPointCloudSimplification) :
    DialogPointCloudSimplification :=
  match d.currentModel with
  | some cloud =>
    if d.ui.radioButtonExpectedPointNumber then
      let expected_number := to_unsigned d.ui.lineEditExpectedPointNumber
      { d with points_to_remove_ := E.uniform_simplification_count cloud expected_number
               calls := d.calls ++ [Call.uniform_simplification_count cloud expected_number] }
    else
      let threshold := d.ui.lineEditDistanceThreshold
      if d.ui.checkBoxUniform then
        let d1 := if d.kdtree_.isNone then constructKdTree d else d
        { d1 with points_to_remove_ := E.uniform_simplification cloud threshold d1.kdtree_
                  calls := d1.calls ++ [Call.uniform_simplification cloud threshold d1.kdtree_] }
      else
        { d with points_to_remove_ := E.grid_simplification cloud threshold
                 calls := d.calls ++ [Call.grid_simplification cloud threshold] }
  | none => d

/-- The method `apply`. -/
def apply (d : DialogPointCloudSimplification) : DialogPointCloudSimplification :=
  match d.currentModel with
  | some cloud =>
    if d.points_to_remove_.length = 0 then d
    else
      let cloud1 := d.points_to_remove_.foldl PointCloud.delete_vertex cloud
      let cloud2 := cloud1.garbage_collection
      let d1 := { d with currentModel := some cloud2
                         calls := d.calls ++ [Call.delete_vertices d.points_to_remove_] }
      let d2 := if !d1.points_to_remove_.isEmpty then { d1 with points_to_remove_ := [] } else d1
      { d2 with kdtree_ := none }
  | none => d

end DialogPointCloudSimplification

/-- What can happen to the dialog: its three slots, its two event handlers, and
the user setting the widgets to new values. -/
inductive Op where
  | computeAvgSpacing
  | query
  | apply
  | closeEvent
  | showEvent
  | edit (ui : Ui)
deriving DecidableEq

/-- One operation on the dialog. -/
def step (E : PointCloudSimplification) (d : DialogPointCloudSimplification) :
    Op → DialogPointCloudSimplification
  | .computeAvgSpacing => d.computeAvgSpacing E
  | .query => d.query E
  | .apply => d.apply
  | .closeEvent => d.closeEvent
  | .showEvent => d.showEvent
  | .edit ui => { d with ui := ui }

/-- A sequence of operations on the dialog, first one first. -/
def run (E : PointCloudSimplification) (ops : List Op) (d : DialogPointCloudSimplification) :
    DialogPointCloudSimplification :=
  ops.foldl (step E) d

/-- The index of the dialog is absent or was built over the current contents
of the current cloud. -/
def kdtree_current (d : DialogPointCloudSimplification) : Prop :=
  ∀ t, d.kdtree_ = some t → d.currentModel = some t.snapshot

/-- In the history `calls`, an index over `cloud` was built before position `n`
and no point has been deleted between that build and position `n`. -/
def built_since_last_removal (calls : List Call) (n : Nat) (cloud : PointCloud) : Prop :=
  ∃ m, m < n ∧ calls[m]? = some (Call.kdtree_build cloud) ∧
    ∀ k ids, m < k → k < n → calls[k]? ≠ some (Call.delete_vertices ids)

/-- The index of the dialog, when there is one, was built over the current
contents of the current cloud, after the last deletion of points. -/
def index_fresh (d : DialogPointCloudSimplification) : Prop :=
  ∀ t, d.kdtree_ = some t →
    d.currentModel = some t.snapshot ∧ built_since_last_removal d.calls d.calls.length t.snapshot

/-- Every call of the history to the uniform threshold simplifier got an index
over the very cloud it was called on, built after the last deletion of points
that precedes the call. -/
def uniform_calls_fresh (calls : List Call) : Prop :=
  ∀ n cloud threshold kdtree,
    calls[n]? = some (Call.uniform_simplification cloud threshold kdtree) →
      kdtree = some { snapshot := cloud } ∧ built_since_last_removal calls n cloud

/-- The five collinear points at x = 0, 1, 2, 3, 4. -/
def five_points : PointCloud :=
  { points := [(0, 0, 0), (1, 0, 0), (2, 0, 0), (3, 0, 0), (4, 0, 0)], deleted := [] }

/-- The dialog over the five collinear points with the distance-threshold
strategy selected, threshold 1.5, and the uniform box as given. -/
def five_points_dialog (uniform : Bool) : DialogPointCloudSimplification :=
  { DialogPointCloudSimplification.init (some five_points) with
    ui := { radioButtonExpectedPointNumber := false
            checkBoxUniform := uniform
            lineEditExpectedPointNumber := 5
            lineEditDistanceThreshold := 3 / 2
            lineEditAverageSpacing := none } }

/-! ## Theorems -/

namespace curve

variable {Point : Type} [AddCommGroup Point] [Module ℚ Point]

/-! ### Loop lemmas -/

theorem quadratic_loop_eq (A B C : Point) (steps : Nat) :
    ∀ (n i : Nat) (curve : List Point), i + n = (steps + 1) % 4294967296 →
      quadratic_loop A B C steps i curve
        = curve ++ (List.range' i n).map (fun j => quadratic_point A B C (param j steps)) := by
  intro n
  induction n with
  | zero =>
    intro i curve h
    rw [quadratic_loop]
    simp
    omega
  | succ n ih =>
    intro i curve h
    rw [quadratic_loop]
    have h1 : i < (steps + 1) % 4294967296 := by omega
    have h2 : (i + 1) % 4294967296 = i + 1 := by omega
    rw [if_pos h1, h2, ih (i + 1) _ (by omega)]
    simp [List.range'_succ]

theorem quadratic_eq (A B C : Point) (steps : Nat) :
    quadratic A B C steps []
      = (List.range ((steps + 1) % 4294967296)).map
          (fun j => quadratic_point A B C (param j steps)) := by
  unfold quadratic
  rw [quadratic_loop_eq A B C steps ((steps + 1) % 4294967296) 0 [] (by omega)]
  simp [List.range_eq_range']

theorem quadratic_point_eq_bezier2 (A B C : Point) (t : ℚ) :
    quadratic_point A B C t = bezier2 A B C t := by
  simp only [quadratic_point, bezier2, smul_add, smul_smul]
  have e1 : (2 * t * (1 - t)) • B = ((1 - t) * t) • B + (t * (1 - t)) • B := by
    rw [← add_smul]; congr 1; ring
  rw [e1, pow_two, pow_two]
  abel

theorem quadratic_length (A B C : Point) (steps : Nat) :
    (quadratic A B C steps []).length = (steps + 1) % 4294967296 := by
  simp [quadratic_eq]

theorem quadratic_get (A B C : Point) (steps i : Nat) (hi : i < (steps + 1) % 4294967296) :
    (quadratic A B C steps [])[i]? = some (bezier2 A B C (param i steps)) := by
  simp [quadratic_eq, List.getElem?_range hi, quadratic_point_eq_bezier2]

theorem quadratic_get_none (A B C : Point) (steps i : Nat) (hi : (steps + 1) % 4294967296 ≤ i) :
    (quadratic A B C steps [])[i]? = none := by
  rw [List.getElem?_eq_none_iff, quadratic_length]
  exact hi

theorem cubic_loop_eq (A B C D : Point) (steps : Nat) :
    ∀ (n i : Nat) (curve : List Point), i + n = (steps + 1) % 4294967296 →
      cubic_loop A B C D steps i curve
        = curve ++ (List.range' i n).map (fun j => cubic_point A B C D (param j steps)) := by
  intro n
  induction n with
  | zero =>
    intro i curve h
    rw [cubic_loop]
    simp
    omega
  | succ n ih =>
    intro i curve h
    rw [cubic_loop]
    have h1 : i < (steps + 1) % 4294967296 := by omega
    have h2 : (i + 1) % 4294967296 = i + 1 := by omega
    rw [if_pos h1, h2, ih (i + 1) _ (by omega)]
    simp [List.range'_succ]

theorem cubic_eq (A B C D : Point) (steps : Nat) :
    cubic A B C D steps []
      = (List.range ((steps + 1) % 4294967296)).map
          (fun j => cubic_point A B C D (param j steps)) := by
  unfold cubic
  rw [cubic_loop_eq A B C D steps ((steps + 1) % 4294967296) 0 [] (by omega)]
  simp [List.range_eq_range']

theorem cubic_point_eq_bezier3 (A B C D : Point) (t : ℚ) :
    cubic_point A B C D t = bezier3 A B C D t := by
  simp only [cubic_point, bezier3]
  module

theorem cubic_length (A B C D : Point) (steps : Nat) :
    (cubic A B C D steps []).length = (steps + 1) % 4294967296 := by
  simp [cubic_eq]

theorem cubic_get (A B C D : Point) (steps i : Nat) (hi : i < (steps + 1) % 4294967296) :
    (cubic A B C D steps [])[i]? = some (bezier3 A B C D (param i steps)) := by
  simp [cubic_eq, List.getElem?_range hi, cubic_point_eq_bezier3]

theorem cubic_get_none (A B C D : Point) (steps i : Nat) (hi : (steps + 1) % 4294967296 ≤ i) :
    (cubic A B C D steps [])[i]? = none := by
  rw [List.getElem?_eq_none_iff, cubic_length]
  exact hi

theorem param_zero (steps : Nat) : param 0 steps = 0 := by
  simp [param]

theorem param_self (steps : Nat) (h : 1 ≤ steps) : param steps steps = 1 := by
  have : (steps : ℚ) ≠ 0 := by exact_mod_cast (by omega : steps ≠ 0)
  simp [param, this]

theorem param_sub (steps i : Nat) (h : 1 ≤ steps) (hi : i ≤ steps) :
    param (steps - i) steps = 1 - param i steps := by
  have : (steps : ℚ) ≠ 0 := by exact_mod_cast (by omega : steps ≠ 0)
  simp only [param]
  rw [Nat.cast_sub hi]
  field_simp

theorem bezier2_zero (A B C : Point) : bezier2 A B C 0 = A := by
  simp [bezier2]

theorem bezier2_one (A B C : Point) : bezier2 A B C 1 = C := by
  simp [bezier2]

theorem bezier3_zero (A B C D : Point) : bezier3 A B C D 0 = A := by
  simp [bezier3]

theorem bezier3_one (A B C D : Point) : bezier3 A B C D 1 = D := by
  simp [bezier3]

theorem bezier2_reverse (A B C : Point) (t : ℚ) :
    bezier2 C B A t = bezier2 A B C (1 - t) := by
  simp only [bezier2]
  module

theorem bezier3_reverse (A B C D : Point) (t : ℚ) :
    bezier3 D C B A t = bezier3 A B C D (1 - t) := by
  simp only [bezier3]
  module

theorem quadratic_length_of_lt (A B C : Point) (steps : Nat) (h : steps + 1 < 4294967296) :
    (quadratic A B C steps []).length = steps + 1 := by
  rw [quadratic_length, Nat.mod_eq_of_lt h]

theorem cubic_length_of_lt (A B C D : Point) (steps : Nat) (h : steps + 1 < 4294967296) :
    (cubic A B C D steps []).length = steps + 1 := by
  rw [cubic_length, Nat.mod_eq_of_lt h]

/-- For control points `A`, `B`, `C` over the rationals and an unsigned
32-bit `steps ≥ 1`, every point that `curve::quadratic` produces is, at its
index `i`, the quadratic Bezier curve `(1-t)^2 A + 2 t (1-t) B + t^2 C` at
`t = i / steps`; and whenever the loop bound `steps + 1` is representable, the
point of every index `0 ≤ i ≤ steps` is produced. -/
theorem quadratic_is_bezier (A B C : Point) (steps : Nat)
    (h1 : 1 ≤ steps) (h2 : steps < 4294967296) :
    (∀ (i : Nat) (p : Point), (quadratic A B C steps [])[i]? = some p →
        p = ((1 - (i : ℚ) / steps) ^ 2) • A + (2 * ((i : ℚ) / steps) * (1 - (i : ℚ) / steps)) • B
              + (((i : ℚ) / steps) ^ 2) • C) ∧
    (steps + 1 < 4294967296 → ∀ i : Nat, i ≤ steps →
        (quadratic A B C steps [])[i]? = some (bezier2 A B C ((i : ℚ) / steps))) := by
  have _ := h1
  have _ := h2
  constructor
  · intro i p hp
    by_cases hi : i < (steps + 1) % 4294967296
    · rw [quadratic_get A B C steps i hi] at hp
      cases hp
      rfl
    · rw [quadratic_get_none A B C steps i (by omega)] at hp
      cases hp
  · intro h i hi
    exact quadratic_get A B C steps i (by omega)

/-- For control points `A`, `B`, `C`, `D` over the rationals and an unsigned
32-bit `steps ≥ 1`, every point that `curve::cubic` produces is, at its index
`i`, the cubic Bezier curve `(1-t)^3 A + 3 t (1-t)^2 B + 3 t^2 (1-t) C + t^3 D`
at `t = i / steps`; and whenever the loop bound `steps + 1` is representable,
the point of every index `0 ≤ i ≤ steps` is produced. -/
theorem cubic_is_bezier (A B C D : Point) (steps : Nat)
    (h1 : 1 ≤ steps) (h2 : steps < 4294967296) :
    (∀ (i : Nat) (p : Point), (cubic A B C D steps [])[i]? = some p →
        p = ((1 - (i : ℚ) / steps) ^ 3) • A + (3 * ((i : ℚ) / steps) * (1 - (i : ℚ) / steps) ^ 2) • B
              + (3 * ((i : ℚ) / steps) ^ 2 * (1 - (i : ℚ) / steps)) • C
              + (((i : ℚ) / steps) ^ 3) • D) ∧
    (steps + 1 < 4294967296 → ∀ i : Nat, i ≤ steps →
        (cubic A B C D steps [])[i]? = some (bezier3 A B C D ((i : ℚ) / steps))) := by
  have _ := h1
  have _ := h2
  constructor
  · intro i p hp
    by_cases hi : i < (steps + 1) % 4294967296
    · rw [cubic_get A B C D steps i hi] at hp
      cases hp
      rfl
    · rw [cubic_get_none A B C D steps i (by omega)] at hp
      cases hp
  · intro h i hi
    exact cubic_get A B C D steps i (by omega)

/-- C1, evaluated at `steps = 4294967295`: the bound `steps + 1` of the loop of
`curve::quadratic` wraps to 0, so the output has no point at any index `i`,
where the claim requires the Bezier point at `t = i / steps` for every
`0 ≤ i ≤ steps`. -/
theorem quadratic_no_point_at_max_steps (A B C : Point) (i : Nat) :
    (quadratic A B C 4294967295 [])[i]? = none := by
  apply quadratic_get_none
  have e : (4294967295 + 1) % 4294967296 = 0 := rfl
  rw [e]
  exact Nat.zero_le i

/-- C2, evaluated at `steps = 4294967295`: the bound `steps + 1` of the loop of
`curve::cubic` wraps to 0, so the output has no point at any index `i`, where
the claim requires the Bezier point at `t = i / steps` for every
`0 ≤ i ≤ steps`. -/
theorem cubic_no_point_at_max_steps (A B C D : Point) (i : Nat) :
    (cubic A B C D 4294967295 [])[i]? = none := by
  apply cubic_get_none
  have e : (4294967295 + 1) % 4294967296 = 0 := rfl
  rw [e]
  exact Nat.zero_le i

/-- C8, evaluated at `steps = 4294967295`: both loops never run, so the outputs
of `curve::quadratic` and `curve::cubic` have neither a first nor a last point,
where the claim requires them to be `A` and `C`, respectively `A` and `D`. -/
theorem no_endpoints_at_max_steps (A B C D : Point) :
    (quadratic A B C 4294967295 []).head? = none ∧
    (quadratic A B C 4294967295 []).getLast? = none ∧
    (cubic A B C D 4294967295 []).head? = none ∧
    (cubic A B C D 4294967295 []).getLast? = none := by
  have e : (4294967295 + 1) % 4294967296 = 0 := rfl
  have hq : quadratic A B C 4294967295 [] = [] :=
    List.eq_nil_of_length_eq_zero (by rw [quadratic_length, e])
  have hc : cubic A B C D 4294967295 [] = [] :=
    List.eq_nil_of_length_eq_zero (by rw [cubic_length, e])
  rw [hq, hc]
  exact ⟨rfl, rfl, rfl, rfl⟩

/-- C3, evaluated at `steps = 4294967295`: the bound `steps + 1` of both loops
wraps to 0 in 32-bit unsigned arithmetic, so `curve::quadratic` and
`curve::cubic` leave an empty output vector empty instead of producing
4294967296 points. -/
theorem no_points_at_max_steps (A B C D : Point) :
    (quadratic A B C 4294967295 []).length = 0 ∧ (cubic A B C D 4294967295 []).length = 0 := by
  rw [quadratic_length, cubic_length]
  constructor <;> rfl

/-- For an unsigned 32-bit `steps ≥ 1` and exact arithmetic, the first point
produced by `curve::quadratic` is `A` and the last is `C`, the first point
produced by `curve::cubic` is `A` and the last is `D`; and whenever the loop
bound `steps + 1` is representable, these first and last points exist. -/
theorem curve_endpoints (A B C D : Point) (steps : Nat)
    (h1 : 1 ≤ steps) (h2 : steps < 4294967296) :
    (∀ p, (quadratic A B C steps []).head? = some p → p = A) ∧
    (∀ p, (quadratic A B C steps []).getLast? = some p → p = C) ∧
    (∀ p, (cubic A B C D steps []).head? = some p → p = A) ∧
    (∀ p, (cubic A B C D steps []).getLast? = some p → p = D) ∧
    (steps + 1 < 4294967296 →
      (quadratic A B C steps []).head? = some A ∧
      (quadratic A B C steps []).getLast? = some C ∧
      (cubic A B C D steps []).head? = some A ∧
      (cubic A B C D steps []).getLast? = some D) := by
  by_cases h : steps + 1 < 4294967296
  · have hq0 : (quadratic A B C steps []).head? = some A := by
      rw [List.head?_eq_getElem?, quadratic_get A B C steps 0 (by omega), param_zero, bezier2_zero]
    have hq1 : (quadratic A B C steps []).getLast? = some C := by
      rw [List.getLast?_eq_getElem?, quadratic_length_of_lt A B C steps h, Nat.add_sub_cancel,
        quadratic_get A B C steps steps (by omega), param_self steps h1, bezier2_one]
    have hc0 : (cubic A B C D steps []).head? = some A := by
      rw [List.head?_eq_getElem?, cubic_get A B C D steps 0 (by omega), param_zero, bezier3_zero]
    have hc1 : (cubic A B C D steps []).getLast? = some D := by
      rw [List.getLast?_eq_getElem?, cubic_length_of_lt A B C D steps h, Nat.add_sub_cancel,
        cubic_get A B C D steps steps (by omega), param_self steps h1, bezier3_one]
    rw [hq0, hq1, hc0, hc1]
    refine ⟨?_, ?_, ?_, ?_, fun _ => ⟨rfl, rfl, rfl, rfl⟩⟩ <;>
      · intro p hp
        cases hp
        rfl
  · have hz : (steps + 1) % 4294967296 = 0 := by omega
    have hq : quadratic A B C steps [] = [] :=
      List.eq_nil_of_length_eq_zero (by rw [quadratic_length, hz])
    have hc : cubic A B C D steps [] = [] :=
      List.eq_nil_of_length_eq_zero (by rw [cubic_length, hz])
    rw [hq, hc]
    refine ⟨?_, ?_, ?_, ?_, fun h' => absurd h' h⟩ <;>
      · intro p hp
        cases hp

/-- C10: for an unsigned 32-bit `steps ≥ 1`, exact arithmetic and `0 ≤ i ≤ steps`,
the `i`-th point of `curve::quadratic(C, B, A, steps)` is the `(steps-i)`-th
point of `curve::quadratic(A, B, C, steps)`, and the `i`-th point of
`curve::cubic(D, C, B, A, steps)` is the `(steps-i)`-th point of
`curve::cubic(A, B, C, D, steps)`; whenever the loop bound `steps + 1` is
representable, these points exist. -/
theorem reversed_control_points (A B C D : Point) (steps i : Nat)
    (h1 : 1 ≤ steps) (h2 : steps < 4294967296) (hi : i ≤ steps) :
    (quadratic C B A steps [])[i]? = (quadratic A B C steps [])[steps - i]? ∧
    (cubic D C B A steps [])[i]? = (cubic A B C D steps [])[steps - i]? ∧
    (steps + 1 < 4294967296 →
      (quadratic C B A steps [])[i]? ≠ none ∧ (cubic D C B A steps [])[i]? ≠ none) := by
  by_cases h : steps + 1 < 4294967296
  · rw [quadratic_get C B A steps i (by omega), quadratic_get A B C steps (steps - i) (by omega),
      cubic_get D C B A steps i (by omega), cubic_get A B C D steps (steps - i) (by omega),
      bezier2_reverse, bezier3_reverse, param_sub steps i h1 hi]
    simp
  · have hz : (steps + 1) % 4294967296 = 0 := by omega
    rw [quadratic_get_none C B A steps i (by omega),
      quadratic_get_none A B C steps (steps - i) (by omega),
      cubic_get_none D C B A steps i (by omega),
      cubic_get_none A B C D steps (steps - i) (by omega)]
    exact ⟨rfl, rfl, fun h' => absurd h' h⟩

theorem quadratic_is_bezier_witness :
    1 ≤ 20 ∧ 20 < 4294967296 ∧ 20 + 1 < 4294967296 ∧ 10 ≤ 20 ∧
      (quadratic ((0, 0, 0) : vec3) (800, 0, 0) (800, 800, 0) 20 [])[10]? = some (600, 200, 0) := by
  refine ⟨by decide, by decide, by decide, by decide, ?_⟩
  rw [(quadratic_is_bezier ((0, 0, 0) : vec3) (800, 0, 0) (800, 800, 0) 20
    (by decide) (by decide)).2 (by decide) 10 (by decide)]
  norm_num [bezier2]

theorem cubic_is_bezier_witness :
    1 ≤ 20 ∧ 20 < 4294967296 ∧ 20 + 1 < 4294967296 ∧ 10 ≤ 20 ∧
      (cubic ((0, 0, 0) : vec3) (400, 0, 0) (400, 800, 0) (800, 800, 0) 20 [])[10]?
        = some (400, 400, 0) := by
  refine ⟨by decide, by decide, by decide, by decide, ?_⟩
  rw [(cubic_is_bezier ((0, 0, 0) : vec3) (400, 0, 0) (400, 800, 0) (800, 800, 0) 20
    (by decide) (by decide)).2 (by decide) 10 (by decide)]
  norm_num [bezier3]

theorem curve_endpoints_witness :
    1 ≤ 20 ∧ 20 < 4294967296 ∧ 20 + 1 < 4294967296 ∧
      (quadratic ((0, 0, 0) : vec3) (800, 0, 0) (800, 800, 0) 20 []).head? = some (0, 0, 0) ∧
      (quadratic ((0, 0, 0) : vec3) (800, 0, 0) (800, 800, 0) 20 []).getLast? = some (800, 800, 0) ∧
      (cubic ((0, 0, 0) : vec3) (800, 0, 0) (800, 800, 0) (800, 800, 0) 20 []).head? = some (0, 0, 0) ∧
      (cubic ((0, 0, 0) : vec3) (800, 0, 0) (800, 800, 0) (800, 800, 0) 20 []).getLast?
        = some (800, 800, 0) :=
  ⟨by decide, by decide, by decide,
    (curve_endpoints ((0, 0, 0) : vec3) (800, 0, 0) (800, 800, 0) (800, 800, 0) 20
      (by decide) (by decide)).2.2.2.2 (by decide)⟩

theorem reversed_control_points_witness :
    1 ≤ 20 ∧ 20 < 4294967296 ∧ 7 ≤ 20 ∧
      (quadratic ((800, 800, 0) : vec3) (800, 0, 0) (0, 0, 0) 20 [])[7]?
        = (quadratic ((0, 0, 0) : vec3) (800, 0, 0) (800, 800, 0) 20 [])[20 - 7]? :=
  ⟨by decide, by decide, by decide,
    (reversed_control_points ((0, 0, 0) : vec3) (800, 0, 0) (800, 800, 0) (800, 800, 0) 20 7
      (by decide) (by decide) (by decide)).1⟩

end curve

open DialogPointCloudSimplification

/-! ### The history of calls -/

theorem built_since_last_removal_append (calls l : List Call) (n : Nat) (cloud : PointCloud)
    (hn : n ≤ calls.length) (h : built_since_last_removal calls n cloud) :
    built_since_last_removal (calls ++ l) n cloud := by
  obtain ⟨m, hm, hb, hd⟩ := h
  refine ⟨m, hm, ?_, ?_⟩
  · rw [List.getElem?_append_left (by omega)]
    exact hb
  · intro k ids hk1 hk2
    rw [List.getElem?_append_left (by omega)]
    exact hd k ids hk1 hk2

theorem built_since_last_removal_concat (calls : List Call) (e : Call) (cloud : PointCloud)
    (he : ∀ ids, e ≠ Call.delete_vertices ids)
    (h : built_since_last_removal calls calls.length cloud) :
    built_since_last_removal (calls ++ [e]) (calls ++ [e]).length cloud := by
  obtain ⟨m, hm, hb, hd⟩ := h
  refine ⟨m, by simp; omega, ?_, ?_⟩
  · rw [List.getElem?_append_left hm]
    exact hb
  · intro k ids hk1 hk2
    by_cases hk : k < calls.length
    · rw [List.getElem?_append_left hk]
      exact hd k ids hk1 hk
    · have hk3 : k = calls.length := by
        simp at hk2
        omega
      rw [hk3, List.getElem?_concat_length]
      intro hc
      exact he ids (Option.some.inj hc)

theorem built_since_last_removal_build (calls : List Call) (cloud : PointCloud) :
    built_since_last_removal (calls ++ [Call.kdtree_build cloud])
      (calls ++ [Call.kdtree_build cloud]).length cloud := by
  refine ⟨calls.length, by simp, List.getElem?_concat_length _ _, ?_⟩
  intro k ids hk1 hk2
  simp at hk2
  omega

theorem uniform_calls_fresh_concat (calls : List Call) (e : Call)
    (h : uniform_calls_fresh calls)
    (he : ∀ cloud threshold kdtree, e = Call.uniform_simplification cloud threshold kdtree →
      kdtree = some { snapshot := cloud } ∧ built_since_last_removal calls calls.length cloud) :
    uniform_calls_fresh (calls ++ [e]) := by
  intro n cloud threshold kdtree hn
  by_cases hlt : n < calls.length
  · rw [List.getElem?_append_left hlt] at hn
    obtain ⟨h1, h2⟩ := h n cloud threshold kdtree hn
    exact ⟨h1, built_since_last_removal_append calls [e] n cloud (by omega) h2⟩
  · by_cases heq : n = calls.length
    · rw [heq, List.getElem?_concat_length] at hn
      obtain ⟨h1, h2⟩ := he cloud threshold kdtree (Option.some.inj hn)
      rw [heq]
      exact ⟨h1, built_since_last_removal_append calls [e] calls.length cloud (by omega) h2⟩
    · rw [List.getElem?_eq_none (by simp; omega)] at hn
      cases hn

theorem uniform_calls_fresh_nil : uniform_calls_fresh [] := by
  intro n cloud threshold kdtree hn
  simp at hn

/-- The invariant of the dialog: the index is fresh and so was every index
handed to the uniform threshold simplifier. -/
theorem step_invariant (E : PointCloudSimplification) (d : DialogPointCloudSimplification)
    (op : Op) (h1 : index_fresh d) (h2 : uniform_calls_fresh d.calls) :
    index_fresh (step E d op) ∧ uniform_calls_fresh (step E d op).calls := by
  cases op with
  | computeAvgSpacing =>
    simp only [step, computeAvgSpacing, constructKdTree]
    cases hm : d.currentModel with
    | none => exact ⟨h1, h2⟩
    | some cloud =>
      simp only []
      constructor
      · intro t ht
        simp only [Option.some.injEq] at ht
        subst ht
        refine ⟨rfl, ?_⟩
        exact built_since_last_removal_concat _ _ _ (by intro ids hc; cases hc)
          (built_since_last_removal_build _ _)
      · refine uniform_calls_fresh_concat _ _ (uniform_calls_fresh_concat _ _ h2 ?_) ?_
        · intro c t k hc; cases hc
        · intro c t k hc; cases hc
  | query =>
    simp only [step, query, constructKdTree]
    cases hm : d.currentModel with
    | none => exact ⟨h1, h2⟩
    | some cloud =>
      simp only []
      by_cases hr : d.ui.radioButtonExpectedPointNumber = true
      · rw [if_pos hr]
        constructor
        · intro t ht
          obtain ⟨a, b⟩ := h1 t ht
          rw [hm] at a
          exact ⟨a, built_since_last_removal_concat _ _ _ (by intro ids hc; cases hc) b⟩
        · exact uniform_calls_fresh_concat _ _ h2 (by intro c t k hc; cases hc)
      · rw [if_neg hr]
        by_cases hu : d.ui.checkBoxUniform = true
        · rw [if_pos hu]
          cases hk : d.kdtree_ with
          | none =>
            simp only [Option.isNone_none, if_true]
            constructor
            · intro t ht
              simp only [Option.some.injEq] at ht
              subst ht
              exact ⟨rfl, built_since_last_removal_concat _ _ _ (by intro ids hc; cases hc)
                (built_since_last_removal_build _ _)⟩
            · refine uniform_calls_fresh_concat _ _ (uniform_calls_fresh_concat _ _ h2 ?_) ?_
              · intro c t k hc; cases hc
              · intro c t k hc
                cases hc
                exact ⟨rfl, built_since_last_removal_build _ _⟩
          | some t0 =>
            simp only [Option.isNone_some, Bool.false_eq_true, if_false]
            obtain ⟨a, b⟩ := h1 t0 hk
            rw [hm] at a
            have ha : cloud = t0.snapshot := Option.some.inj a
            constructor
            · intro t ht
              rw [hk] at ht
              cases ht
              exact ⟨(h1 t0 hk).1, built_since_last_removal_concat _ _ _ (by intro ids hc; cases hc) b⟩
            · refine uniform_calls_fresh_concat _ _ h2 ?_
              intro c t k hc
              cases hc
              rw [hk, ha]
              exact ⟨rfl, b⟩
        · rw [if_neg hu]
          constructor
          · intro t ht
            obtain ⟨a, b⟩ := h1 t ht
            rw [hm] at a
            exact ⟨a, built_since_last_removal_concat _ _ _ (by intro ids hc; cases hc) b⟩
          · exact uniform_calls_fresh_concat _ _ h2 (by intro c t k hc; cases hc)
  | apply =>
    simp only [step, DialogPointCloudSimplification.apply]
    cases hm : d.currentModel with
    | none => exact ⟨h1, h2⟩
    | some cloud =>
      simp only []
      by_cases he : d.points_to_remove_.length = 0
      · rw [if_pos he]
        exact ⟨h1, h2⟩
      · rw [if_neg he]
        constructor
        · intro t ht
          cases ht
        · have hc : uniform_calls_fresh (d.calls ++ [Call.delete_vertices d.points_to_remove_]) :=
            uniform_calls_fresh_concat _ _ h2 (by intro c t k hc; cases hc)
          split <;> exact hc
  | closeEvent => exact ⟨h1, h2⟩
  | showEvent =>
    simp only [step, showEvent]
    cases hm : d.currentModel with
    | none => exact ⟨h1, h2⟩
    | some cloud =>
      constructor
      · intro t ht
        have := h1 t ht
        rw [hm] at this
        exact this
      · exact h2
  | edit ui => exact ⟨h1, h2⟩

theorem run_invariant (E : PointCloudSimplification) (ops : List Op) :
    ∀ d : DialogPointCloudSimplification, index_fresh d → uniform_calls_fresh d.calls →
      index_fresh (run E ops d) ∧ uniform_calls_fresh (run E ops d).calls := by
  induction ops with
  | nil => intro d h1 h2; exact ⟨h1, h2⟩
  | cons op ops ih =>
    intro d h1 h2
    obtain ⟨a, b⟩ := step_invariant E d op h1 h2
    exact ih (step E d op) a b


/-! ### The dialog operations -/

theorem query_removal_set (E : PointCloudSimplification) (d : DialogPointCloudSimplification)
    (cloud : PointCloud) (hm : d.currentModel = some cloud) :
    (d.query E).points_to_remove_ =
      if d.ui.radioButtonExpectedPointNumber then
        E.uniform_simplification_count cloud (to_unsigned d.ui.lineEditExpectedPointNumber)
      else if d.ui.checkBoxUniform then
        E.uniform_simplification cloud d.ui.lineEditDistanceThreshold
          (if d.kdtree_.isNone then some { snapshot := cloud } else d.kdtree_)
      else E.grid_simplification cloud d.ui.lineEditDistanceThreshold := by
  simp only [query, constructKdTree, hm]
  split
  · rfl
  · split
    · split <;> rfl
    · rfl

theorem query_new_calls (E : PointCloudSimplification) (d : DialogPointCloudSimplification)
    (cloud : PointCloud) (hm : d.currentModel = some cloud) :
    (d.query E).calls = d.calls ++
      if d.ui.radioButtonExpectedPointNumber then
        [Call.uniform_simplification_count cloud (to_unsigned d.ui.lineEditExpectedPointNumber)]
      else if d.ui.checkBoxUniform then
        if d.kdtree_.isNone then
          [Call.kdtree_build cloud,
            Call.uniform_simplification cloud d.ui.lineEditDistanceThreshold
              (some { snapshot := cloud })]
        else [Call.uniform_simplification cloud d.ui.lineEditDistanceThreshold d.kdtree_]
      else [Call.grid_simplification cloud d.ui.lineEditDistanceThreshold] := by
  simp only [query, constructKdTree, hm]
  split
  · rfl
  · split
    · split <;> simp
    · rfl

/-- C4: in every sequence of dialog operations (`computeAvgSpacing`, `query`,
`apply`, and also the event handlers and widget edits) over one current point
cloud, started from a dialog with no index (`kdtree_` null) and an empty call
history, the index is afterwards null or was built over the current contents
of the cloud; and every index that `query` handed to the uniform threshold
simplifier was an index over the very cloud of that call, built after the last
`apply` that deleted points before the call. -/
theorem kdtree_current_after_every_operation (E : PointCloudSimplification)
    (d0 : DialogPointCloudSimplification) (ops : List Op)
    (h0 : d0.kdtree_ = none) (hc : d0.calls = []) :
    kdtree_current (run E ops d0) ∧
    ∀ n cloud threshold kdtree,
      (run E ops d0).calls[n]? = some (Call.uniform_simplification cloud threshold kdtree) →
        kdtree = some { snapshot := cloud } ∧
        built_since_last_removal (run E ops d0).calls n cloud := by
  have hf : index_fresh d0 := by
    intro t ht
    rw [h0] at ht
    cases ht
  have hu : uniform_calls_fresh d0.calls := by
    rw [hc]
    exact uniform_calls_fresh_nil
  obtain ⟨a, b⟩ := run_invariant E ops d0 hf hu
  exact ⟨fun t ht => (a t ht).1, b⟩

theorem kdtree_current_after_every_operation_witness :
    (five_points_dialog true).kdtree_ = none ∧ (five_points_dialog true).calls = [] ∧
      kdtree_current (run (engine (fun _ _ => []) (fun _ _ _ => 0))
        [Op.computeAvgSpacing, Op.query, Op.apply, Op.query] (five_points_dialog true)) :=
  ⟨rfl, rfl, (kdtree_current_after_every_operation (engine (fun _ _ => []) (fun _ _ _ => 0))
    (five_points_dialog true) [Op.computeAvgSpacing, Op.query, Op.apply, Op.query] rfl rfl).1⟩

/-- C6: for a dialog state with a current point cloud, one call of `query` calls
exactly one simplifier of the engine, chosen by the widgets alone: the
count-target simplifier with the expected point number when the radio button
of the expected point number is checked; otherwise the uniform threshold
simplifier with the threshold and the (non-null) k-d tree when the uniform box
is checked, and the grid simplifier with the threshold as cell size when it is
not. The stored removal set is the result of that call, and the earlier
history of calls is kept. -/
theorem query_invokes_one_simplifier (E : PointCloudSimplification)
    (d : DialogPointCloudSimplification) (cloud : PointCloud) (hm : d.currentModel = some cloud) :
    (d.ui.radioButtonExpectedPointNumber = true →
      ((d.query E).calls.drop d.calls.length).filter Call.isSimplifier
        = [Call.uniform_simplification_count cloud (to_unsigned d.ui.lineEditExpectedPointNumber)] ∧
      (d.query E).points_to_remove_
        = E.uniform_simplification_count cloud (to_unsigned d.ui.lineEditExpectedPointNumber)) ∧
    (d.ui.radioButtonExpectedPointNumber = false → d.ui.checkBoxUniform = true →
      ((d.query E).calls.drop d.calls.length).filter Call.isSimplifier
        = [Call.uniform_simplification cloud d.ui.lineEditDistanceThreshold (d.query E).kdtree_] ∧
      (d.query E).points_to_remove_
        = E.uniform_simplification cloud d.ui.lineEditDistanceThreshold (d.query E).kdtree_ ∧
      (d.query E).kdtree_ ≠ none) ∧
    (d.ui.radioButtonExpectedPointNumber = false → d.ui.checkBoxUniform = false →
      ((d.query E).calls.drop d.calls.length).filter Call.isSimplifier
        = [Call.grid_simplification cloud d.ui.lineEditDistanceThreshold] ∧
      (d.query E).points_to_remove_
        = E.grid_simplification cloud d.ui.lineEditDistanceThreshold) ∧
    (∃ l, (d.query E).calls = d.calls ++ l) := by
  have hk : (d.query E).kdtree_
      = if d.ui.radioButtonExpectedPointNumber then d.kdtree_
        else if d.ui.checkBoxUniform then
          (if d.kdtree_.isNone then some { snapshot := cloud } else d.kdtree_)
        else d.kdtree_ := by
    simp only [query, constructKdTree, hm]
    split
    · rfl
    · split
      · split <;> rfl
      · rfl
  rw [query_removal_set E d cloud hm, query_new_calls E d cloud hm, hk]
  refine ⟨?_, ?_, ?_, ⟨_, rfl⟩⟩
  · intro hr
    simp [hr, Call.isSimplifier]
  · intro hr hu
    cases hkd : d.kdtree_ <;> simp [hr, hu, Call.isSimplifier]
  · intro hr hu
    simp [hr, hu, Call.isSimplifier]

/-- C7: `query` and `computeAvgSpacing` leave the point cloud as it is (and so
do `constructKdTree`, `closeEvent` and `showEvent`); `query` leaves the widgets
as they are, and it changes the index only when the uniform threshold strategy
is selected and there is no index, in which case the new index is one over the
current cloud. -/
theorem query_and_computeAvgSpacing_keep_cloud (E : PointCloudSimplification)
    (d : DialogPointCloudSimplification) :
    (d.query E).currentModel = d.currentModel ∧
    (d.computeAvgSpacing E).currentModel = d.currentModel ∧
    d.constructKdTree.currentModel = d.currentModel ∧
    d.closeEvent.currentModel = d.currentModel ∧
    d.showEvent.currentModel = d.currentModel ∧
    (d.query E).ui = d.ui ∧
    ((d.query E).kdtree_ = d.kdtree_ ∨
      (d.kdtree_ = none ∧ d.ui.radioButtonExpectedPointNumber = false ∧
        d.ui.checkBoxUniform = true ∧
        ∃ cloud, d.currentModel = some cloud ∧ (d.query E).kdtree_ = some { snapshot := cloud })) := by
  refine ⟨?_, ?_, ?_, rfl, ?_, ?_, ?_⟩
  · simp only [query, constructKdTree]
    cases hm : d.currentModel with
    | none => simp [hm]
    | some cloud =>
      simp only []
      split
      · simp [hm]
      · split
        · split <;> simp [hm]
        · simp [hm]
  · simp only [computeAvgSpacing, constructKdTree]
    cases hm : d.currentModel with
    | none => simp [hm]
    | some cloud => simp [hm]
  · simp only [constructKdTree]
    cases hm : d.currentModel with
    | none => simp [hm]
    | some cloud => simp [hm]
  · simp only [showEvent]
    cases hm : d.currentModel with
    | none => simp [hm]
    | some cloud => simp [hm]
  · simp only [query, constructKdTree]
    cases hm : d.currentModel with
    | none => rfl
    | some cloud =>
      simp only []
      split
      · rfl
      · split
        · split <;> rfl
        · rfl
  · simp only [query, constructKdTree]
    cases hm : d.currentModel with
    | none => exact Or.inl rfl
    | some cloud =>
      simp only []
      by_cases hr : d.ui.radioButtonExpectedPointNumber = true
      · rw [if_pos hr]; exact Or.inl rfl
      · rw [if_neg hr]
        by_cases hu : d.ui.checkBoxUniform = true
        · rw [if_pos hu]
          cases hk : d.kdtree_ with
          | none =>
            right
            simp [hu]
            simpa using hr
          | some t => left; simp [hk]
        · rw [if_neg hu]; exact Or.inl rfl

/-- C9: for a dialog state with a current point cloud, `apply` followed by `apply`
yields the same state as one `apply`; `apply` with an empty stored removal set
changes nothing at all; `apply` with a non-empty removal set ends with the
removal set empty, the index discarded (`kdtree_` null) and the cloud compacted
after the deletion of the stored identifiers. -/
theorem apply_twice (d : DialogPointCloudSimplification) (cloud : PointCloud)
    (hm : d.currentModel = some cloud) :
    d.apply.apply = d.apply ∧
    (d.points_to_remove_ = [] → d.apply = d) ∧
    (d.points_to_remove_ ≠ [] →
      d.apply.points_to_remove_ = [] ∧ d.apply.kdtree_ = none ∧
      d.apply.currentModel
        = some (d.points_to_remove_.foldl PointCloud.delete_vertex cloud).garbage_collection) := by
  by_cases he : d.points_to_remove_ = []
  · have h : d.apply = d := by
      simp [DialogPointCloudSimplification.apply, hm, he]
    rw [h]
    exact ⟨h, fun _ => rfl, fun hne => absurd he hne⟩
  · have hl : ¬ d.points_to_remove_.length = 0 := by
      simpa using he
    have hb : (!d.points_to_remove_.isEmpty) = true := by
      simpa using he
    have h : d.apply =
        { currentModel := some (d.points_to_remove_.foldl PointCloud.delete_vertex cloud).garbage_collection
          ui := d.ui
          kdtree_ := none
          points_to_remove_ := []
          calls := d.calls ++ [Call.delete_vertices d.points_to_remove_] } := by
      simp [DialogPointCloudSimplification.apply, hm, hl, hb]
    rw [h]
    refine ⟨?_, fun h' => absurd h' he, fun _ => ⟨rfl, rfl, rfl⟩⟩
    simp [DialogPointCloudSimplification.apply]


/-! ### The simplifiers -/

theorem mem_withinRadius (t : KdTreeSearch_ETH) (p : vec3) (radius : ℚ) (i : Nat) :
    i ∈ t.withinRadius p radius ↔
      ∃ q, t.snapshot.points[i]? = some q ∧ distance2 q p < radius ^ 2 := by
  simp only [KdTreeSearch_ETH.withinRadius, List.mem_map, List.mem_filter,
    List.mem_enum_iff_getElem?, decide_eq_true_eq]
  constructor
  · rintro ⟨⟨j, q⟩, ⟨h1, h2⟩, h3⟩
    simp only at h1 h2 h3
    subst h3
    exact ⟨q, h1, h2⟩
  · rintro ⟨q, h1, h2⟩
    exact ⟨(i, q), ⟨h1, h2⟩, rfl⟩

theorem uniform_scan_spec (t : KdTreeSearch_ETH) (threshold : ℚ) :
    ∀ (ps : List vec3) (id : Nat) (kept removed : List Nat),
      (∀ x ∈ removed, x ∈ uniform_scan t threshold ps id kept removed) ∧
      (∀ (j : Nat) (p : vec3), ps[j]? = some p →
        id + j ∉ uniform_scan t threshold ps id kept removed →
          (∀ i ∈ kept, i ∉ t.withinRadius p threshold) ∧
          (∀ i, i < j → id + i ∉ uniform_scan t threshold ps id kept removed →
            id + i ∉ t.withinRadius p threshold)) := by
  intro ps
  induction ps with
  | nil =>
    intro id kept removed
    refine ⟨fun x hx => hx, ?_⟩
    intro j p hp
    simp at hp
  | cons p0 ps ih =>
    intro id kept removed
    rw [uniform_scan]
    split
    · rename_i hc
      obtain ⟨ih1, ih2⟩ := ih (id + 1) kept (removed ++ [id])
      have hid : id ∈ uniform_scan t threshold ps (id + 1) kept (removed ++ [id]) :=
        ih1 id (by simp)
      refine ⟨fun x hx => ih1 x (by simp [hx]), ?_⟩
      intro j p hp hj
      cases j with
      | zero => exact absurd hid hj
      | succ j =>
        have e : id + (j + 1) = id + 1 + j := by omega
        rw [e] at hj
        simp only [List.getElem?_cons_succ] at hp
        obtain ⟨a, b⟩ := ih2 j p hp hj
        refine ⟨a, ?_⟩
        intro i hi hi2
        cases i with
        | zero => exact absurd hid hi2
        | succ i =>
          have e2 : id + (i + 1) = id + 1 + i := by omega
          rw [e2] at hi2 ⊢
          exact b i (by omega) hi2
    · rename_i hc
      obtain ⟨ih1, ih2⟩ := ih (id + 1) (id :: kept) removed
      refine ⟨ih1, ?_⟩
      intro j p hp hj
      cases j with
      | zero =>
        simp only [List.getElem?_cons_zero, Option.some.injEq] at hp
        subst hp
        constructor
        · intro i hi hw
          apply hc
          rw [List.any_eq_true]
          exact ⟨i, hw, by simpa using hi⟩
        · intro i hi
          omega
      | succ j =>
        have e : id + (j + 1) = id + 1 + j := by omega
        rw [e] at hj
        simp only [List.getElem?_cons_succ] at hp
        obtain ⟨a, b⟩ := ih2 j p hp hj
        refine ⟨fun i hi => a i (List.mem_cons_of_mem _ hi), ?_⟩
        intro i hi hi2
        cases i with
        | zero => exact a id (List.mem_cons_self _ _)
        | succ i =>
          have e2 : id + (i + 1) = id + 1 + i := by omega
          rw [e2] at hi2 ⊢
          exact b i (by omega) hi2

theorem distance2_comm (p q : vec3) : distance2 p q = distance2 q p := by
  simp only [distance2]
  ring

/-- Survivors of the distance-threshold simplifier, run with an index over the
cloud itself, are at least `threshold` apart (on squares). -/
theorem uniform_simplification_spacing (cloud : PointCloud) (threshold : ℚ)
    (i j : Nat) (p q : vec3) (hij : i ≠ j)
    (hp : cloud.points[i]? = some p) (hq : cloud.points[j]? = some q)
    (hi : i ∉ uniform_simplification cloud threshold (some { snapshot := cloud }))
    (hj : j ∉ uniform_simplification cloud threshold (some { snapshot := cloud })) :
    threshold ≤ 0 ∨ threshold ^ 2 ≤ distance2 p q := by
  by_cases ht : threshold ≤ 0
  · exact Or.inl ht
  · right
    simp only [uniform_simplification, if_neg ht] at hi hj
    have key : ∀ (a b : Nat) (pa pb : vec3), a < b → cloud.points[a]? = some pa →
        cloud.points[b]? = some pb →
        a ∉ uniform_scan { snapshot := cloud } threshold cloud.points 0 [] [] →
        b ∉ uniform_scan { snapshot := cloud } threshold cloud.points 0 [] [] →
        threshold ^ 2 ≤ distance2 pa pb := by
      intro a b pa pb hab ha hb hna hnb
      have h := (uniform_scan_spec { snapshot := cloud } threshold cloud.points 0 [] []).2 b pb hb
        (by simpa using hnb)
      have h2 := h.2 a hab (by simpa using hna)
      rw [Nat.zero_add, mem_withinRadius] at h2
      by_contra hlt
      exact h2 ⟨pa, ha, lt_of_not_le hlt⟩
    rcases Nat.lt_or_gt_of_ne hij with h | h
    · exact key i j p q h hp hq hi hj
    · rw [distance2_comm]
      exact key j i q p h hq hp hj hi

theorem grid_scan_spec (cell_size : ℚ) :
    ∀ (ps : List vec3) (id : Nat) (occupied : List (Int × Int × Int)) (removed : List Nat),
      (∀ x ∈ removed, x ∈ grid_scan cell_size ps id occupied removed) ∧
      (∀ (j : Nat) (p : vec3), ps[j]? = some p →
        id + j ∉ grid_scan cell_size ps id occupied removed →
          grid_cell cell_size p ∉ occupied ∧
          (∀ i q, i < j → ps[i]? = some q →
            id + i ∉ grid_scan cell_size ps id occupied removed →
              grid_cell cell_size q ≠ grid_cell cell_size p)) := by
  intro ps
  induction ps with
  | nil =>
    intro id occupied removed
    refine ⟨fun x hx => hx, ?_⟩
    intro j p hp
    simp at hp
  | cons p0 ps ih =>
    intro id occupied removed
    rw [grid_scan]
    split
    · rename_i hc
      obtain ⟨ih1, ih2⟩ := ih (id + 1) occupied (removed ++ [id])
      have hid : id ∈ grid_scan cell_size ps (id + 1) occupied (removed ++ [id]) :=
        ih1 id (by simp)
      refine ⟨fun x hx => ih1 x (by simp [hx]), ?_⟩
      intro j p hp hj
      cases j with
      | zero => exact absurd hid hj
      | succ j =>
        have e : id + (j + 1) = id + 1 + j := by omega
        rw [e] at hj
        simp only [List.getElem?_cons_succ] at hp
        obtain ⟨a, b⟩ := ih2 j p hp hj
        refine ⟨a, ?_⟩
        intro i q hi hq hi2
        cases i with
        | zero => exact absurd hid hi2
        | succ i =>
          have e2 : id + (i + 1) = id + 1 + i := by omega
          rw [e2] at hi2
          simp only [List.getElem?_cons_succ] at hq
          exact b i q (by omega) hq hi2
    · rename_i hc
      obtain ⟨ih1, ih2⟩ := ih (id + 1) (grid_cell cell_size p0 :: occupied) removed
      refine ⟨ih1, ?_⟩
      intro j p hp hj
      cases j with
      | zero =>
        simp only [List.getElem?_cons_zero, Option.some.injEq] at hp
        subst hp
        refine ⟨hc, ?_⟩
        intro i q hi
        omega
      | succ j =>
        have e : id + (j + 1) = id + 1 + j := by omega
        rw [e] at hj
        simp only [List.getElem?_cons_succ] at hp
        obtain ⟨a, b⟩ := ih2 j p hp hj
        refine ⟨fun h => a (List.mem_cons_of_mem _ h), ?_⟩
        intro i q hi hq hi2
        cases i with
        | zero =>
          simp only [List.getElem?_cons_zero, Option.some.injEq] at hq
          subst hq
          intro heq
          exact a (by rw [heq]; exact List.mem_cons_self _ _)
        | succ i =>
          have e2 : id + (i + 1) = id + 1 + i := by omega
          rw [e2] at hi2
          simp only [List.getElem?_cons_succ] at hq
          exact b i q (by omega) hq hi2

/-- Survivors of the grid simplifier lie in pairwise different cells. -/
theorem grid_simplification_cells (cloud : PointCloud) (cell_size : ℚ)
    (i j : Nat) (p q : vec3) (hij : i ≠ j)
    (hp : cloud.points[i]? = some p) (hq : cloud.points[j]? = some q)
    (hi : i ∉ grid_simplification cloud cell_size)
    (hj : j ∉ grid_simplification cloud cell_size) :
    cell_size ≤ 0 ∨ grid_cell cell_size p ≠ grid_cell cell_size q := by
  by_cases ht : cell_size ≤ 0
  · exact Or.inl ht
  · right
    simp only [grid_simplification, if_neg ht] at hi hj
    have key : ∀ (a b : Nat) (pa pb : vec3), a < b → cloud.points[a]? = some pa →
        cloud.points[b]? = some pb →
        a ∉ grid_scan cell_size cloud.points 0 [] [] →
        b ∉ grid_scan cell_size cloud.points 0 [] [] →
        grid_cell cell_size pa ≠ grid_cell cell_size pb := by
      intro a b pa pb hab ha hb hna hnb
      have h := (grid_scan_spec cell_size cloud.points 0 [] []).2 b pb hb (by simpa using hnb)
      exact h.2 a pa hab ha (by simpa using hna)
    rcases Nat.lt_or_gt_of_ne hij with h | h
    · exact key i j p q h hp hq hi hj
    · exact (key j i q p h hq hp hj hi).symm


theorem le_sqrt_distance2 (threshold : ℚ) (p q : vec3) (ht : 0 < threshold)
    (h : threshold ^ 2 ≤ distance2 p q) :
    (threshold : ℝ) ≤ Real.sqrt ((distance2 p q : ℚ) : ℝ) := by
  have h0 : (0 : ℝ) < (threshold : ℝ) := by exact_mod_cast ht
  rw [Real.le_sqrt' h0]
  exact_mod_cast h

theorem five_points_grid : grid_simplification five_points (3 / 2) = [1, 4] := by decide!

theorem five_points_uniform :
    uniform_simplification five_points (3 / 2) (some { snapshot := five_points }) = [1, 3] := by
  decide!

/-- C5 fails as stated: for the five collinear points x = 0, 1, 2, 3, 4 and
threshold 1.5 with the uniform box unchecked, `query` calls the grid simplifier,
whose removal set is {1, 4}, not {1, 3}; the survivors x = 2 and x = 3 are at
distance 1, below the threshold. -/
theorem grid_mode_breaks_threshold_guarantee :
    ((five_points_dialog false).query (engine (fun _ _ => []) (fun _ _ _ => 0))).points_to_remove_
      = [1, 4] ∧
    ¬ (∀ (i j : Nat) (p q : vec3), i ≠ j →
        five_points.points[i]? = some p → five_points.points[j]? = some q →
        i ∉ ((five_points_dialog false).query
              (engine (fun _ _ => []) (fun _ _ _ => 0))).points_to_remove_ →
        j ∉ ((five_points_dialog false).query
              (engine (fun _ _ => []) (fun _ _ _ => 0))).points_to_remove_ →
        (((3 / 2 : ℚ) : ℝ)) ≤ Real.sqrt ((distance2 p q : ℚ) : ℝ)) := by
  have hR : ((five_points_dialog false).query
      (engine (fun _ _ => []) (fun _ _ _ => 0))).points_to_remove_ = [1, 4] := by decide!
  refine ⟨hR, ?_⟩
  intro h
  have h1 := h 2 3 (2, 0, 0) (3, 0, 0) (by decide) rfl rfl (by rw [hR]; decide) (by rw [hR]; decide)
  have hd : distance2 (2, 0, 0) (3, 0, 0) = 1 := by norm_num [distance2]
  rw [hd] at h1
  norm_num at h1

/-- C5, amended: for a point cloud, a threshold > 0 and a dialog whose index is
null or current, with the distance-threshold strategy selected: when the
uniform box is checked, the survivors of the removal set that `query` computes
are pairwise at distance >= threshold; when it is unchecked, `query` runs the
grid simplifier and the survivors lie in pairwise different grid cells of edge
length threshold. For the five collinear points x = 0, 1, 2, 3, 4 and threshold
1.5 the removal set is {1, 3} (survivors {0, 2, 4}) with the box checked and
{1, 4} (survivors {0, 2, 3}) with the box unchecked. -/
theorem query_threshold_guarantee (count : PointCloud → Nat → List Nat)
    (spacing : PointCloud → KdTreeSearch_ETH → Nat → ℚ)
    (d : DialogPointCloudSimplification) (cloud : PointCloud)
    (hm : d.currentModel = some cloud)
    (hr : d.ui.radioButtonExpectedPointNumber = false)
    (ht : 0 < d.ui.lineEditDistanceThreshold)
    (hk : kdtree_current d) :
    (d.ui.checkBoxUniform = true →
      ∀ (i j : Nat) (p q : vec3), i ≠ j →
        cloud.points[i]? = some p → cloud.points[j]? = some q →
        i ∉ (d.query (engine count spacing)).points_to_remove_ →
        j ∉ (d.query (engine count spacing)).points_to_remove_ →
        (d.ui.lineEditDistanceThreshold : ℝ) ≤ Real.sqrt ((distance2 p q : ℚ) : ℝ)) ∧
    (d.ui.checkBoxUniform = false →
      ∀ (i j : Nat) (p q : vec3), i ≠ j →
        cloud.points[i]? = some p → cloud.points[j]? = some q →
        i ∉ (d.query (engine count spacing)).points_to_remove_ →
        j ∉ (d.query (engine count spacing)).points_to_remove_ →
        grid_cell d.ui.lineEditDistanceThreshold p ≠ grid_cell d.ui.lineEditDistanceThreshold q) ∧
    ((five_points_dialog true).query (engine count spacing)).points_to_remove_ = [1, 3] ∧
    ((five_points_dialog false).query (engine count spacing)).points_to_remove_ = [1, 4] := by
  refine ⟨?_, ?_, ?_, ?_⟩
  · intro hu i j p q hij hp hq hi hj
    have hkd : (if d.kdtree_.isNone then some { snapshot := cloud } else d.kdtree_)
        = some ({ snapshot := cloud } : KdTreeSearch_ETH) := by
      cases hkt : d.kdtree_ with
      | none => rfl
      | some t =>
        have h1 := hk t hkt
        rw [hm] at h1
        have h2 : cloud = t.snapshot := Option.some.inj h1
        simp [h2]
    rw [query_removal_set _ d cloud hm] at hi hj
    simp only [hr, hu, hkd, engine, Bool.false_eq_true, if_false, if_true] at hi hj
    rcases uniform_simplification_spacing cloud _ i j p q hij hp hq hi hj with h | h
    · exact absurd ht (not_lt.mpr h)
    · exact le_sqrt_distance2 _ p q ht h
  · intro hu i j p q hij hp hq hi hj
    rw [query_removal_set _ d cloud hm] at hi hj
    simp only [hr, hu, engine, Bool.false_eq_true, if_false] at hi hj
    rcases grid_simplification_cells cloud _ i j p q hij hp hq hi hj with h | h
    · exact absurd ht (not_lt.mpr h)
    · exact h
  · rw [query_removal_set _ _ five_points rfl]
    exact five_points_uniform
  · rw [query_removal_set _ _ five_points rfl]
    exact five_points_grid

theorem query_threshold_guarantee_witness :
    (five_points_dialog true).currentModel = some five_points ∧
    (five_points_dialog true).ui.radioButtonExpectedPointNumber = false ∧
    0 < (five_points_dialog true).ui.lineEditDistanceThreshold ∧
    kdtree_current (five_points_dialog true) ∧
    (five_points_dialog true).ui.checkBoxUniform = true ∧
    (((five_points_dialog true).ui.lineEditDistanceThreshold : ℝ))
      ≤ Real.sqrt ((distance2 (0, 0, 0) (2, 0, 0) : ℚ) : ℝ) := by
  have hk : kdtree_current (five_points_dialog true) := by
    intro t ht
    cases ht
  have h0 : 0 < (five_points_dialog true).ui.lineEditDistanceThreshold := by decide!
  have hR : ((five_points_dialog true).query
      (engine (fun _ _ => []) (fun _ _ _ => 0))).points_to_remove_ = [1, 3] := by decide!
  exact ⟨rfl, rfl, h0, hk, rfl,
    (query_threshold_guarantee (fun _ _ => []) (fun _ _ _ => 0) (five_points_dialog true)
      five_points rfl rfl h0 hk).1 rfl 0 2 (0, 0, 0) (2, 0, 0) (by decide) rfl rfl
      (by rw [hR]; decide) (by rw [hR]; decide)⟩

theorem query_invokes_one_simplifier_witness :
    (five_points_dialog false).currentModel = some five_points ∧
    (five_points_dialog false).ui.radioButtonExpectedPointNumber = false ∧
    (five_points_dialog false).ui.checkBoxUniform = false ∧
    ((five_points_dialog false).query (engine (fun _ _ => []) (fun _ _ _ => 0))).points_to_remove_
      = (engine (fun _ _ => []) (fun _ _ _ => 0)).grid_simplification five_points
          (five_points_dialog false).ui.lineEditDistanceThreshold :=
  ⟨rfl, rfl, rfl,
    ((query_invokes_one_simplifier (engine (fun _ _ => []) (fun _ _ _ => 0))
      (five_points_dialog false) five_points rfl).2.2.1 rfl rfl).2⟩

theorem apply_twice_witness :
    ((five_points_dialog false).query
        (engine (fun _ _ => []) (fun _ _ _ => 0))).currentModel = some five_points ∧
    (((five_points_dialog false).query
        (engine (fun _ _ => []) (fun _ _ _ => 0))).apply).apply
      = ((five_points_dialog false).query (engine (fun _ _ => []) (fun _ _ _ => 0))).apply :=
  ⟨rfl, (apply_twice ((five_points_dialog false).query (engine (fun _ _ => []) (fun _ _ _ => 0)))
    five_points rfl).1⟩

end easy3d
